import Mathlib

/-!
# Grid cells of the spatial index (`Cell.h`) and the weather manager (`WeatherMgr.cpp`)

A shallow embedding of `struct CellArea` and `struct Cell` of
`src/server/game/Grids/Cells/Cell.h` and of the functions of
`src/server/game/Weather/WeatherMgr.cpp`, followed by the properties stated
about them.

Conventions of the embedding.

* `uint32` values are natural numbers below `2 ^ 32`; arithmetic that is stored
  in a `uint32` is reduced `% 4294967296`.
* `Cell` is its 32-bit word `data.All`.  The four bit-fields `data.Part.*` are
  the four bytes of that word, `grid_x` in the lowest byte and `cell_y` in the
  highest (the allocation order of the common ABIs).  Storing into a bit-field
  of width 8 keeps the low 8 bits of the stored value.
* `MAX_NUMBER_OF_CELLS` comes from `GridDefines.h`, which is not part of the
  sources at hand: every function that uses it takes it as the first
  argument `N`.
-/

namespace AzerothCore

/-! ## Data model -/

/-- Modelled from the spec: `CellCoord` (declared in `GridDefines.h`, which is
missing) is "a pair of unsigned integers `(x_index, y_index)`" whose
"equality is by-value".  The members keep the names `x_coord`, `y_coord`. -/
structure CellCoord where
  x_coord : Nat
  y_coord : Nat
  deriving DecidableEq, Repr

/-- Modelled from the spec: the `operator==` of `CellCoord`, declared with the type in
the missing `GridDefines.h`: "Equality is by-value", on both members. -/
def CellCoord.operator_eq (p1 p2 : CellCoord) : Bool :=
  p1.x_coord == p2.x_coord && p1.y_coord == p2.y_coord

/-- The `struct CellArea`: the two corners of a rectangle of cells. -/
structure CellArea where
  low_bound : CellCoord
  high_bound : CellCoord
  deriving DecidableEq, Repr

/-- The `CellArea::operator!`: `return low_bound == high_bound;`. -/
def CellArea.operator_not (a : CellArea) : Bool :=
  a.low_bound.operator_eq a.high_bound

/-- The `CellArea::ResizeBorders`: copies the two bounds into the out-parameters. -/
def CellArea.ResizeBorders (a : CellArea) : CellCoord × CellCoord :=
  (a.low_bound, a.high_bound)

/-- The `struct Cell`: the union `data`, held as its 32-bit member `All`. -/
structure Cell where
  All : Nat
  All_lt : All < 4294967296
  deriving DecidableEq

/-- The default constructor `Cell() { data.All = 0; }`. -/
def Cell.zero : Cell := ⟨0, by decide⟩

/-- The bit-field `data.Part.grid_x` (bits 0..7). -/
def Cell.grid_x (c : Cell) : Nat := c.All % 256

/-- The bit-field `data.Part.grid_y` (bits 8..15). -/
def Cell.grid_y (c : Cell) : Nat := c.All / 256 % 256

/-- The bit-field `data.Part.cell_x` (bits 16..23). -/
def Cell.cell_x (c : Cell) : Nat := c.All / 65536 % 256

/-- The bit-field `data.Part.cell_y` (bits 24..31). -/
def Cell.cell_y (c : Cell) : Nat := c.All / 16777216 % 256

/-- The word obtained by storing `gx`, `gy`, `cx`, `cy` into the four bit-fields;
each store keeps the low 8 bits of its value. -/
def Cell.ofParts (gx gy cx cy : Nat) : Cell :=
  ⟨gx % 256 + 256 * (gy % 256) + 65536 * (cx % 256) + 16777216 * (cy % 256), by omega⟩

/-- The accessor `CellX()`. -/
def Cell.CellX (c : Cell) : Nat := c.cell_x

/-- The accessor `CellY()`. -/
def Cell.CellY (c : Cell) : Nat := c.cell_y

/-- The accessor `GridX()`. -/
def Cell.GridX (c : Cell) : Nat := c.grid_x

/-- The accessor `GridY()`. -/
def Cell.GridY (c : Cell) : Nat := c.grid_y

/-! ## Operations of `Cell` -/

/-- The `Cell::Compute(uint32& x, uint32& y)`: the two values written to `x` and `y`. -/
def Cell.Compute (N : Nat) (c : Cell) : Nat × Nat :=
  ((c.grid_x * N + c.cell_x) % 4294967296, (c.grid_y * N + c.cell_y) % 4294967296)

/-- The `Cell::DiffCell`: the cell fields differ. -/
def Cell.DiffCell (a b : Cell) : Bool :=
  a.cell_x != b.cell_x || a.cell_y != b.cell_y

/-- The `Cell::DiffGrid`: the grid fields differ. -/
def Cell.DiffGrid (a b : Cell) : Bool :=
  a.grid_x != b.grid_x || a.grid_y != b.grid_y

/-- The `Cell::GetCellCoord`: the `CellCoord` rebuilt from the four fields; each sum
is stored in a `uint32` member. -/
def Cell.GetCellCoord (N : Nat) (c : Cell) : CellCoord :=
  ⟨(c.grid_x * N + c.cell_x) % 4294967296, (c.grid_y * N + c.cell_y) % 4294967296⟩

/-- The `Cell::operator==`: `data.All == cell.data.All`. -/
def Cell.operator_eq (a b : Cell) : Bool := a.All == b.All

/-- The `Cell::operator!=`: `!operator==(cell)`. -/
def Cell.operator_ne (a b : Cell) : Bool := !(a.operator_eq b)

/-- Modelled from the spec: the constructor `Cell::Cell(CellCoord const&)` is only
declared in `Cell.h`; its body is missing.  The spec gives it as the "pure
arithmetic split: `region = index / SubBucketsPerRegion`,
`sub = index % SubBucketsPerRegion`" on each axis, stored into the four
8-bit fields. -/
def Cell.ofCellCoord (N : Nat) (p : CellCoord) : Cell :=
  Cell.ofParts (p.x_coord / N) (p.y_coord / N) (p.x_coord % N) (p.y_coord % N)

/-- The canonical reconstruction in the words of the spec,
`region * SubBucketsPerRegion + sub` on each axis, over the unbounded naturals. -/
def canonicalAddress (N : Nat) (c : Cell) : CellCoord :=
  ⟨c.grid_x * N + c.cell_x, c.grid_y * N + c.cell_y⟩

/-! ## The parts of the codec, the resolver and the dispatcher that are only declared

`Cell.h` declares `Cell(float, float)`, `CalculateCellArea` and `Visit` without
bodies.  They are modelled from the specification.  World positions, which the
specification calls continuous, are rational numbers. -/

/-- Modelled from the spec: the configuration of the Coordinate Codec and the world
bounds supplied by the map collaborator, none of which `Cell.h` defines: the
"configured bucket side-length", the offset that makes "the world's usable
range map to non-negative integers", and "the world's minimum/maximum valid
address" per axis. -/
structure CodecConfig where
  side : ℚ
  offset : ℚ
  min_addr : Nat
  max_addr : Nat

/-- Modelled from the spec: the position-to-address path of the Codec on one axis
(its code is missing): "divide each world coordinate by a configured bucket
side-length, offset so that the world's usable range maps to non-negative
integers".  The quotient is rounded down, as the worked scenario of the spec
requires (side 1: 7.5 goes to 7 and 12.5 goes to 12). -/
def positionToAddress (cfg : CodecConfig) (p : ℚ) : Int :=
  ⌊p / cfg.side + cfg.offset⌋

/-- Modelled from the spec: the Range Resolver has to "clamp each resulting bound to
the world's minimum/maximum valid address". -/
def clampAddress (cfg : CodecConfig) (i : Int) : Nat :=
  if i < cfg.min_addr then cfg.min_addr
  else if (cfg.max_addr : Int) < i then cfg.max_addr
  else i.toNat

/-- Modelled from the spec: `Cell::CalculateCellArea(x, y, radius)` is only declared
in `Cell.h`.  The spec's `Resolve`: "compute the axis-aligned bounding square
of the circle", `[x - radius, x + radius]` and the same for `y`, "convert both
corner positions through the Codec's position→address path", "and clamp each
resulting bound". -/
def Cell.CalculateCellArea (cfg : CodecConfig) (x y radius : ℚ) : CellArea :=
  { low_bound := ⟨clampAddress cfg (positionToAddress cfg (x - radius)),
                  clampAddress cfg (positionToAddress cfg (y - radius))⟩
    high_bound := ⟨clampAddress cfg (positionToAddress cfg (x + radius)),
                   clampAddress cfg (positionToAddress cfg (y + radius))⟩ }

/-- A position `(px, py)` lies strictly inside the circle of radius `radius` around `(x, y)`. -/
def strictlyInside (x y radius px py : ℚ) : Prop :=
  0 ≤ radius ∧ (px - x) ^ 2 + (py - y) ^ 2 < radius ^ 2

/-- The pair of per-axis addresses `(ix, iy)` lies componentwise between the bounds of `a`. -/
def CellArea.holds (a : CellArea) (ix iy : Int) : Prop :=
  (a.low_bound.x_coord : Int) ≤ ix ∧ ix ≤ a.high_bound.x_coord ∧
  (a.low_bound.y_coord : Int) ≤ iy ∧ iy ≤ a.high_bound.y_coord

/-- An address is one of the world's valid addresses. -/
def addressInWorld (cfg : CodecConfig) (i : Int) : Prop :=
  (cfg.min_addr : Int) ≤ i ∧ i ≤ cfg.max_addr

/-- The errors of the Coordinate Codec named by the spec. -/
inductive CodecError where
  | PositionOutOfBounds
  deriving DecidableEq, Repr

/-- A per-axis address can be stored in a `Cell`: it is not negative and both its
region index and its sub index fit their 8-bit fields. -/
def representable (N : Nat) (i : Int) : Prop :=
  0 ≤ i ∧ i.toNat / N < 256 ∧ i.toNat % N < 256

instance (N : Nat) (i : Int) : Decidable (representable N i) := by
  unfold representable; infer_instance

/-- Modelled from the spec: the constructor `Cell::Cell(float x, float y)` is only
declared in `Cell.h`.  The spec's `FromPosition`: take the address of each
coordinate, "then split each axis index into `(region, sub)`"; a position
"outside the representable range (region or sub index exceeding the 8-bit
field)" is "a hard error (PositionOutOfBounds)", and so is a negative index
on the "non-negative-only address space". -/
def Cell.ofPosition (N : Nat) (cfg : CodecConfig) (x y : ℚ) : Except CodecError Cell :=
  if representable N (positionToAddress cfg x) ∧ representable N (positionToAddress cfg y) then
    .ok (Cell.ofCellCoord N
      ⟨(positionToAddress cfg x).toNat, (positionToAddress cfg y).toNat⟩)
  else
    .error CodecError.PositionOutOfBounds

/-- The object categories of the spec. -/
inductive Category where
  | GridBound
  | WorldBound
  deriving DecidableEq, Repr

/-- Modelled from the spec: one of the "typed containers (one container per object
category)" that the Bucket Store Interface returns for a bucket. -/
structure Container (Obj : Type) where
  category : Category
  objects : List Obj

/-- Modelled from the spec: the Bucket Store Interface, "given a BucketKey, return
zero or more typed containers". -/
abbrev BucketStore (Obj : Type) := Cell → List (Container Obj)

/-- The addresses `lo, lo + 1, ..., hi` of one axis of an inclusive range. -/
def axisRange (lo hi : Nat) : List Nat := List.range' lo (hi + 1 - lo)

/-- Modelled from the spec: the objects a non-degenerate `Visit` hands to the
operation, in order: "a double loop over the two axes"; "for each resulting
BucketAddress, derive its BucketKey via the Codec, fetch its containers via the
Bucket Store Interface, and for each container whose category matches the
requested set, invoke `operation` once per contained object, in container
iteration order". -/
def sweepObjects {Obj : Type} (N : Nat) (store : BucketStore Obj) (area : CellArea)
    (categories : List Category) : List Obj :=
  (axisRange area.low_bound.x_coord area.high_bound.x_coord).flatMap fun x =>
    (axisRange area.low_bound.y_coord area.high_bound.y_coord).flatMap fun y =>
      (store (Cell.ofCellCoord N ⟨x, y⟩)).flatMap fun c =>
        if c.category ∈ categories then c.objects else []

/-- Modelled from the spec: the objects on which `Visit` is to invoke the operation:
"if `area` is degenerate, return immediately (no-op, not an error)", otherwise
the sweep of the inclusive range. -/
def visitedObjects {Obj : Type} (N : Nat) (store : BucketStore Obj) (area : CellArea)
    (categories : List Category) : List Obj :=
  if area.operator_not then [] else sweepObjects N store area categories

/-- Modelled from the spec: `Cell::Visit` is only declared in `Cell.h`.  The
operation acts on a state `σ` and may fail with an `ε`; the Dispatcher
"propagates whatever the supplied `operation` raises", which "terminates the
remainder of the current Visit's bucket walk".  The first test is the spec's
"if `area` is degenerate, return immediately". -/
def Cell.Visit {Obj σ ε : Type} (N : Nat) (store : BucketStore Obj) (area : CellArea)
    (categories : List Category) (operation : σ → Obj → Except ε σ) (s : σ) : Except ε σ :=
  if area.operator_not then .ok s
  else (sweepObjects N store area categories).foldlM operation s

/-- The configuration of the spec's worked scenario: "bucket side-length 1 unit, world
spanning address `[0,255]` per axis (one region only)". -/
def scenarioConfig : CodecConfig :=
  { side := 1, offset := 0, min_addr := 0, max_addr := 255 }

/-- The number of sub-buckets per region in the worked scenario: one region holds all
256 addresses of an axis. -/
def scenarioCells : Nat := 256

/-! ## Weather manager (`WeatherMgr.cpp`)

The two `std::unordered_map`s of the anonymous namespace are association lists
with one entry per key; the order of the list is the iteration order of the
container.  A `std::unique_ptr<Weather>` owns its object, so an entry of
`m_weathers` holds the `Weather` object itself, and the `Weather*` that
`FindWeather` and `AddWeather` return is that object.  The class `Weather`
(`Weather.h`, `Weather.cpp`) is not part of the sources at hand: its member
functions are the fields of `WeatherOps`, each acting on the object it is called
on.  `WEATHER_SEASONS` and `MAX_WEATHER_TYPE` (`Weather.h`) are the arguments
`S` and `T`. -/

/-- The `find` of a `std::unordered_map` with `uint32` keys. -/
def mapFind {α : Type} : List (Nat × α) → Nat → Option α
  | [], _ => none
  | (k, v) :: rest, key => if k = key then some v else mapFind rest key

/-- The assignment `m[key] = v` of a `std::unordered_map`: the entry of `key` is
replaced when there is one and added otherwise. -/
def mapAssign {α : Type} : List (Nat × α) → Nat → α → List (Nat × α)
  | [], key, v => [(key, v)]
  | (k, w) :: rest, key, v =>
    if k = key then (key, v) :: rest else (k, w) :: mapAssign rest key v

/-- The `erase` of the entry that `find(key)` returns, when there is one. -/
def mapErase {α : Type} : List (Nat × α) → Nat → List (Nat × α)
  | [], _ => []
  | (k, w) :: rest, key => if k = key then rest else (k, w) :: mapErase rest key

/-- The element type of `WeatherData::data` (`Weather.h`, missing), with the three
`uint8` members that `LoadWeatherData` writes. -/
structure WeatherSeasonChances where
  rainChance : Nat
  snowChance : Nat
  stormChance : Nat
  deriving DecidableEq, Repr

/-- The `struct WeatherData` (`Weather.h`, missing) as `LoadWeatherData` uses it: the
array `data`, indexed by the season, and `ScriptId`. -/
structure WeatherData where
  data : Nat → WeatherSeasonChances
  ScriptId : Nat

/-- The value-initialised `WeatherData` that `mWeatherZoneMap[zone_id]` creates for a
new key. -/
def WeatherData.zero : WeatherData := ⟨fun _ => ⟨0, 0, 0⟩, 0⟩

/-- One row of the query of `LoadWeatherData` (`Field* fields`): the numeric value of
each column and the string of the last column, `ScriptName`. -/
structure Row where
  fields : Nat → Nat
  ScriptName : String

/-- The read `fields[i].Get<uint8>()`: the value of the column as a `uint8`. -/
def Row.getUInt8 (row : Row) (i : Nat) : Nat := row.fields i % 256

/-- The read `fields[i].Get<uint32>()`: the value of the column as a `uint32`. -/
def Row.getUInt32 (row : Row) (i : Nat) : Nat := row.fields i % 4294967296

/-- The columns of the query of `LoadWeatherData`, in the order of the `SELECT`. -/
def queryColumns : List String :=
  ["zone", "spring_rain_chance", "spring_snow_chance", "spring_storm_chance",
   "summer_rain_chance", "summer_snow_chance", "summer_storm_chance",
   "fall_rain_chance", "fall_snow_chance", "fall_storm_chance",
   "winter_rain_chance", "winter_snow_chance", "winter_storm_chance",
   "ScriptName"]

/-- The index `season * (MAX_WEATHER_TYPE - 1) + k` of the column that
`LoadWeatherData` reads for a season; `k` is 1 for rain, 2 for snow, 3 for storm.
The subtraction is the one of the code for `T ≥ 1`. -/
def chanceColumn (T season k : Nat) : Nat := season * (T - 1) + k

/-- The body of the loop over the seasons in `LoadWeatherData`, on the element
`wzc.data[season]`: the three reads, then the three tests that replace a chance
above 100 by 25. -/
def loadSeasonChances (T : Nat) (row : Row) (season : Nat) (c : WeatherSeasonChances) :
    WeatherSeasonChances :=
  let c := { c with rainChance := row.getUInt8 (chanceColumn T season 1) }
  let c := { c with snowChance := row.getUInt8 (chanceColumn T season 2) }
  let c := { c with stormChance := row.getUInt8 (chanceColumn T season 3) }
  let c := if c.rainChance > 100 then { c with rainChance := 25 } else c
  let c := if c.snowChance > 100 then { c with snowChance := 25 } else c
  let c := if c.stormChance > 100 then { c with stormChance := 25 } else c
  c

/-- One pass of the loop over the seasons: `wzc.data[season]` is rewritten. -/
def loadSeason (T : Nat) (row : Row) (wzc : WeatherData) (season : Nat) : WeatherData :=
  { wzc with
    data := fun i => if i = season then loadSeasonChances T row season (wzc.data season)
                     else wzc.data i }

/-- The body of the `do ... while` of `LoadWeatherData` for one row: the entry of the
zone is fetched with `mWeatherZoneMap[zone_id]`, every season
`0 .. WEATHER_SEASONS - 1` is loaded, and `ScriptId` is set from the last column by
`sObjectMgr->GetScriptId`, which is the argument `getScriptId`.  The counter
`season` is a `uint8`: the loop is this one for `S ≤ 255`. -/
def loadRow (S T : Nat) (getScriptId : String → Nat) (m : List (Nat × WeatherData))
    (row : Row) : List (Nat × WeatherData) :=
  let zone_id := row.getUInt32 0
  let wzc := (mapFind m zone_id).getD WeatherData.zero
  let wzc := (List.range S).foldl (loadSeason T row) wzc
  let wzc := { wzc with ScriptId := getScriptId row.ScriptName }
  mapAssign m zone_id wzc

/-- The `WeatherMgr::LoadWeatherData` on `mWeatherZoneMap`: an empty result returns at
once; otherwise the first row is processed and then every next row. -/
def LoadWeatherData (S T : Nat) (getScriptId : String → Nat) (rows : List Row)
    (m : List (Nat × WeatherData)) : List (Nat × WeatherData) :=
  match rows with
  | [] => m
  | row :: next => next.foldl (loadRow S T getScriptId) (loadRow S T getScriptId m row)

/-- The member functions of the class `Weather` that `WeatherMgr.cpp` calls: the
constructor `Weather(zone, weatherChances)`, `GetZone`, `ReGenerate`,
`UpdateWeather` and `Update(diff)`.  A member function that changes its object
returns the changed object; `Update` also returns its `bool`. -/
structure WeatherOps (W : Type) where
  new : Nat → WeatherData → W
  GetZone : W → Nat
  ReGenerate : W → W
  UpdateWeather : W → W
  Update : Nat → W → W × Bool

/-- The two maps of the anonymous namespace of `WeatherMgr.cpp`. -/
structure WeatherMgrState (W : Type) where
  m_weathers : List (Nat × W)
  mWeatherZoneMap : List (Nat × WeatherData)

/-- The `GetWeatherData` of the anonymous namespace. -/
def GetWeatherData {W : Type} (s : WeatherMgrState W) (zone_id : Nat) : Option WeatherData :=
  mapFind s.mWeatherZoneMap zone_id

/-- The `WeatherMgr::FindWeather`. -/
def FindWeather {W : Type} (s : WeatherMgrState W) (id : Nat) : Option W :=
  mapFind s.m_weathers id

/-- The `WeatherMgr::RemoveWeather`. -/
def RemoveWeather {W : Type} (s : WeatherMgrState W) (id : Nat) : WeatherMgrState W :=
  { s with m_weathers := mapErase s.m_weathers id }

/-- The `WeatherMgr::AddWeather`: the returned pointer, `none` for `nullptr`, and the
state afterwards.  The object is stored under `w->GetZone()` and then changed by
`ReGenerate` and `UpdateWeather`. -/
def AddWeather {W : Type} (ops : WeatherOps W) (s : WeatherMgrState W) (zone_id : Nat) :
    Option W × WeatherMgrState W :=
  match GetWeatherData s zone_id with
  | none => (none, s)
  | some weatherChances =>
    let w := ops.new zone_id weatherChances
    let key := ops.GetZone w
    let w := ops.UpdateWeather (ops.ReGenerate w)
    (some w, { s with m_weathers := mapAssign s.m_weathers key w })

/-- The loop of `WeatherMgr::Update` from `itr` to `end()`.  The arguments are the
entries before `itr` that are still in the map, the calls of `Weather::Update` made
so far, as pairs of the zone and the argument, and the entries from `itr` on.
Here `next` is the entry after `itr`; the object at `itr` is updated and its entry
is erased when `Update` returned false; the loop goes on at `next`.  The result is
the map and the calls made. -/
def updateLoop {W : Type} (ops : WeatherOps W) (diff : Nat) :
    List (Nat × W) → List (Nat × Nat) → List (Nat × W) → List (Nat × W) × List (Nat × Nat)
  | kept, calls, [] => (kept, calls)
  | kept, calls, (zone, w) :: next =>
    let r := ops.Update diff w
    if r.2 then updateLoop ops diff (kept ++ [(zone, r.1)]) (calls ++ [(zone, diff)]) next
    else updateLoop ops diff kept (calls ++ [(zone, diff)]) next

/-- The `WeatherMgr::Update`: the state afterwards and the calls of `Weather::Update`
in the order they were made. -/
def Update {W : Type} (ops : WeatherOps W) (diff : Nat) (s : WeatherMgrState W) :
    WeatherMgrState W × List (Nat × Nat) :=
  let r := updateLoop ops diff [] [] s.m_weathers
  ({ s with m_weathers := r.1 }, r.2)

/-- The stored chance in the words of the claim: the raw value when it is at most 100,
and 25 otherwise. -/
def clampedChance (raw : Nat) : Nat := if raw ≤ 100 then raw else 25

/-- Every chance of the seasons `0 .. S - 1` is at most 100. -/
def WeatherData.chancesAtMost100 (S : Nat) (wd : WeatherData) : Prop :=
  ∀ season, season < S →
    (wd.data season).rainChance ≤ 100 ∧ (wd.data season).snowChance ≤ 100 ∧
    (wd.data season).stormChance ≤ 100

/-- The chances that a row gives for a season: the three columns of the season, each
replaced by 25 when above 100. -/
def rowChances (T : Nat) (row : Row) (season : Nat) : WeatherSeasonChances :=
  ⟨clampedChance (row.getUInt8 (chanceColumn T season 1)),
   clampedChance (row.getUInt8 (chanceColumn T season 2)),
   clampedChance (row.getUInt8 (chanceColumn T season 3))⟩

/-- The names of the seasons in the order of the columns of the query. -/
def seasonNames : List String := ["spring", "summer", "fall", "winter"]

/-- The names of the weather types with a chance column: `k = 1, 2, 3`. -/
def chanceNames : List String := ["rain", "snow", "storm"]

/-- The name that the query gives the chance column of a season and a weather type `k`. -/
def chanceColumnName (season k : Nat) : String :=
  seasonNames.getD season "" ++ "_" ++ chanceNames.getD (k - 1) "" ++ "_chance"

/-- The chance of a season for the weather type `k`, in the numbering of the loader:
`rainChance` is read with `+ 1`, `snowChance` with `+ 2`, `stormChance` with `+ 3`. -/
def WeatherSeasonChances.chance (c : WeatherSeasonChances) (k : Nat) : Nat :=
  match k with
  | 1 => c.rainChance
  | 2 => c.snowChance
  | 3 => c.stormChance
  | _ => 0

/-- What `WeatherMgr::Update` leaves of one entry: the updated object when its
`Update` returned true, nothing otherwise. -/
def updatedEntry {W : Type} (ops : WeatherOps W) (diff : Nat) (e : Nat × W) : Option (Nat × W) :=
  if (ops.Update diff e.2).2 then some (e.1, (ops.Update diff e.2).1) else none

/-- A row for the examples: zone 7 and the value `40 * i` in the chance column `i`. -/
def sampleRow : Row :=
  { fields := fun i => if i = 0 then 7 else 40 * i, ScriptName := "" }

/-- A `Weather` for the examples: the object is its zone and a countdown; `Update`
takes `diff` off the countdown and returns whether some of it was left. -/
def sampleOps : WeatherOps (Nat × Nat) :=
  { new := fun zone wd => (zone, wd.ScriptId)
    GetZone := fun w => w.1
    ReGenerate := fun w => (w.1, w.2 + 1)
    UpdateWeather := fun w => w
    Update := fun diff w => ((w.1, w.2 - diff), decide (diff < w.2)) }

/-- A state for the examples: weather in the zones 1, 2 and 3, data for the zone 2. -/
def sampleState : WeatherMgrState (Nat × Nat) :=
  { m_weathers := [(1, (1, 5)), (2, (2, 0)), (3, (3, 9))]
    mWeatherZoneMap := [(2, { WeatherData.zero with ScriptId := 4 })] }

/-! ## Basic facts about the packed word -/

theorem Cell.ext_All {a b : Cell} (h : a.All = b.All) : a = b := by
  cases a; cases b; cases h; rfl

theorem Cell.grid_x_lt (c : Cell) : c.grid_x < 256 := by
  unfold Cell.grid_x; omega

theorem Cell.grid_y_lt (c : Cell) : c.grid_y < 256 := by
  unfold Cell.grid_y; omega

theorem Cell.cell_x_lt (c : Cell) : c.cell_x < 256 := by
  unfold Cell.cell_x; omega

theorem Cell.cell_y_lt (c : Cell) : c.cell_y < 256 := by
  unfold Cell.cell_y; omega

/-- The word is the sum of its four bytes: no bit lies outside the four fields. -/
theorem Cell.All_eq_parts (c : Cell) :
    c.All = c.grid_x + 256 * c.grid_y + 65536 * c.cell_x + 16777216 * c.cell_y := by
  have h := c.All_lt
  unfold Cell.grid_x Cell.grid_y Cell.cell_x Cell.cell_y
  omega

theorem Cell.grid_x_ofParts (gx gy cx cy : Nat) :
    (Cell.ofParts gx gy cx cy).grid_x = gx % 256 := by
  unfold Cell.grid_x Cell.ofParts; simp only; omega

theorem Cell.grid_y_ofParts (gx gy cx cy : Nat) :
    (Cell.ofParts gx gy cx cy).grid_y = gy % 256 := by
  unfold Cell.grid_y Cell.ofParts; simp only; omega

theorem Cell.cell_x_ofParts (gx gy cx cy : Nat) :
    (Cell.ofParts gx gy cx cy).cell_x = cx % 256 := by
  unfold Cell.cell_x Cell.ofParts; simp only; omega

theorem Cell.cell_y_ofParts (gx gy cx cy : Nat) :
    (Cell.ofParts gx gy cx cy).cell_y = cy % 256 := by
  unfold Cell.cell_y Cell.ofParts; simp only; omega

/-- Two words are equal exactly when their four bytes are. -/
theorem Cell.All_eq_iff (a b : Cell) :
    a.All = b.All ↔
      a.grid_x = b.grid_x ∧ a.grid_y = b.grid_y ∧ a.cell_x = b.cell_x ∧ a.cell_y = b.cell_y := by
  constructor
  · intro h
    unfold Cell.grid_x Cell.grid_y Cell.cell_x Cell.cell_y
    rw [h]
    exact ⟨rfl, rfl, rfl, rfl⟩
  · rintro ⟨h1, h2, h3, h4⟩
    rw [a.All_eq_parts, b.All_eq_parts, h1, h2, h3, h4]

/-- Splitting an index below `256 * N` and recombining it gives the index back, when
the remainder fits its 8-bit field (`N ≤ 256`). -/
theorem split_recombine (N i : Nat) (hN : N ≤ 256) (hi : i < 256 * N) :
    ((i / N % 256) * N + i % N % 256) % 4294967296 = i := by
  have hpos : 0 < N := by
    rcases Nat.eq_zero_or_pos N with h | h
    · subst h; omega
    · exact h
  have hq : i / N < 256 := by
    rw [Nat.div_lt_iff_lt_mul hpos]; exact hi
  have hr : i % N < N := Nat.mod_lt _ hpos
  have hdm : i / N * N + i % N = i := by
    rw [Nat.mul_comm]; exact Nat.div_add_mod i N
  rw [Nat.mod_eq_of_lt hq, Nat.mod_eq_of_lt (lt_of_lt_of_le hr hN), hdm]
  apply Nat.mod_eq_of_lt
  have : 256 * N ≤ 256 * 256 := Nat.mul_le_mul_left _ hN
  omega

theorem Cell.operator_eq_iff (a b : Cell) :
    a.operator_eq b = true ↔
      a.grid_x = b.grid_x ∧ a.grid_y = b.grid_y ∧ a.cell_x = b.cell_x ∧ a.cell_y = b.cell_y := by
  unfold Cell.operator_eq
  rw [beq_iff_eq]
  exact Cell.All_eq_iff a b

theorem Cell.DiffCell_iff (a b : Cell) :
    a.DiffCell b = true ↔ a.cell_x ≠ b.cell_x ∨ a.cell_y ≠ b.cell_y := by
  simp [Cell.DiffCell]

theorem Cell.DiffGrid_iff (a b : Cell) :
    a.DiffGrid b = true ↔ a.grid_x ≠ b.grid_x ∨ a.grid_y ≠ b.grid_y := by
  simp [Cell.DiffGrid]

/-- The bound `N ≤ 256` of `split_recombine` is needed: with 257 cells per grid side the
index 256 has sub index 256, which the 8-bit field stores as 0. -/
theorem split_recombine_needs_bound :
    (Cell.ofCellCoord 257 ⟨256, 0⟩).GetCellCoord 257 = ⟨0, 0⟩ := by
  decide

/-! ## Facts about the modelled codec, resolver and dispatcher -/

theorem positionToAddress_mono (cfg : CodecConfig) (hside : 0 < cfg.side) {p q : ℚ}
    (h : p ≤ q) : positionToAddress cfg p ≤ positionToAddress cfg q := by
  unfold positionToAddress
  apply Int.floor_mono
  have : p / cfg.side ≤ q / cfg.side := div_le_div_of_nonneg_right h hside.le
  linarith

theorem clampAddress_le (cfg : CodecConfig) {i j : Int} (hi : addressInWorld cfg i)
    (h : j ≤ i) : (clampAddress cfg j : Int) ≤ i := by
  obtain ⟨h1, h2⟩ := hi
  unfold clampAddress
  split_ifs <;> omega

theorem le_clampAddress (cfg : CodecConfig) {i j : Int} (hi : addressInWorld cfg i)
    (h : i ≤ j) : i ≤ (clampAddress cfg j : Int) := by
  obtain ⟨h1, h2⟩ := hi
  unfold clampAddress
  split_ifs <;> omega

theorem strictlyInside_bounds {x y radius px py : ℚ} (h : strictlyInside x y radius px py) :
    (x - radius ≤ px ∧ px ≤ x + radius) ∧ (y - radius ≤ py ∧ py ≤ y + radius) := by
  obtain ⟨hr, hlt⟩ := h
  have hx : (px - x) ^ 2 < radius ^ 2 := by nlinarith [sq_nonneg (py - y)]
  have hy : (py - y) ^ 2 < radius ^ 2 := by nlinarith [sq_nonneg (px - x)]
  have ax := abs_lt.mp (abs_lt_of_sq_lt_sq hx hr)
  have ay := abs_lt.mp (abs_lt_of_sq_lt_sq hy hr)
  constructor <;> constructor <;> linarith [ax.1, ax.2, ay.1, ay.2]

theorem positionToAddress_scenario (p : ℚ) : positionToAddress scenarioConfig p = ⌊p⌋ := by
  simp [positionToAddress, scenarioConfig]

theorem Cell.Visit_eq_foldlM {Obj σ ε : Type} (N : Nat) (store : BucketStore Obj)
    (area : CellArea) (categories : List Category) (operation : σ → Obj → Except ε σ) (s : σ) :
    Cell.Visit N store area categories operation s =
      (visitedObjects N store area categories).foldlM operation s := by
  unfold Cell.Visit visitedObjects
  split_ifs <;> rfl

theorem representable_recombine (N : Nat) (i : Int) (h : representable N i) :
    ((i.toNat / N % 256 : Nat) : Int) * N + ((i.toNat % N % 256 : Nat) : Int) = i := by
  obtain ⟨h0, hq, hr⟩ := h
  rw [Nat.mod_eq_of_lt hq, Nat.mod_eq_of_lt hr]
  have h1 : i.toNat / N * N + i.toNat % N = i.toNat := by
    rw [Nat.mul_comm]; exact Nat.div_add_mod _ _
  have h2 : ((i.toNat : Nat) : Int) = i := Int.toNat_of_nonneg h0
  rw [← h2]
  exact_mod_cast h1

theorem Cell.ofPosition_ok {N : Nat} {cfg : CodecConfig} {x y : ℚ} {c : Cell}
    (h : Cell.ofPosition N cfg x y = .ok c) :
    (representable N (positionToAddress cfg x) ∧ representable N (positionToAddress cfg y)) ∧
    c = Cell.ofCellCoord N ⟨(positionToAddress cfg x).toNat, (positionToAddress cfg y).toNat⟩ := by
  unfold Cell.ofPosition at h
  split_ifs at h with hrep
  · refine ⟨hrep, ?_⟩
    injection h with h
    exact h.symm

theorem Cell.ofPosition_exact {N : Nat} {cfg : CodecConfig} {x y : ℚ} {c : Cell}
    (h : Cell.ofPosition N cfg x y = .ok c) :
    (c.grid_x : Int) * N + c.cell_x = positionToAddress cfg x ∧
    (c.grid_y : Int) * N + c.cell_y = positionToAddress cfg y := by
  obtain ⟨⟨hx, hy⟩, rfl⟩ := Cell.ofPosition_ok h
  simp only [Cell.ofCellCoord, Cell.grid_x_ofParts, Cell.grid_y_ofParts,
    Cell.cell_x_ofParts, Cell.cell_y_ofParts]
  exact ⟨representable_recombine N _ hx, representable_recombine N _ hy⟩

/-! ## Facts about the weather manager and the reconstruction of addresses -/

theorem recombine_inj {N g c g' c' : Nat} (hc : c < N) (hc' : c' < N)
    (h : g * N + c = g' * N + c') : g = g' ∧ c = c' := by
  have hN : 0 < N := by omega
  have hd : (g * N + c) / N = (g' * N + c') / N := by rw [h]
  have hm : (g * N + c) % N = (g' * N + c') % N := by rw [h]
  rw [Nat.mul_comm g, Nat.mul_comm g', Nat.mul_add_div hN, Nat.mul_add_div hN,
    Nat.div_eq_of_lt hc, Nat.div_eq_of_lt hc'] at hd
  rw [Nat.mul_comm g, Nat.mul_comm g', Nat.mul_add_mod, Nat.mul_add_mod,
    Nat.mod_eq_of_lt hc, Nat.mod_eq_of_lt hc'] at hm
  exact ⟨by simpa using hd, hm⟩

theorem Cell.recombine_lt (N : Nat) (hN : N ≤ 256) {g c : Nat} (hg : g < 256) (hc : c < 256) :
    (g * N + c) % 4294967296 = g * N + c := by
  have : g * N ≤ 255 * 256 := Nat.mul_le_mul (by omega) hN
  exact Nat.mod_eq_of_lt (by omega)

theorem mapFind_mapAssign_self {α : Type} (m : List (Nat × α)) (key : Nat) (v : α) :
    mapFind (mapAssign m key v) key = some v := by
  induction m with
  | nil => simp [mapAssign, mapFind]
  | cons e rest ih =>
    obtain ⟨k, w⟩ := e
    by_cases h : k = key
    · simp [mapAssign, mapFind, h]
    · simp [mapAssign, mapFind, h, ih]

theorem mapFind_mapAssign_ne {α : Type} (m : List (Nat × α)) (key : Nat) (v : α) {z : Nat}
    (hz : z ≠ key) : mapFind (mapAssign m key v) z = mapFind m z := by
  induction m with
  | nil => simp [mapAssign, mapFind, Ne.symm hz]
  | cons e rest ih =>
    obtain ⟨k, w⟩ := e
    by_cases h : k = key
    · subst h
      simp [mapAssign, mapFind, Ne.symm hz]
    · by_cases h2 : k = z
      · subst h2
        simp [mapAssign, mapFind, hz]
      · simp [mapAssign, mapFind, h, h2, ih]

theorem loadSeasonChances_eq (T : Nat) (row : Row) (season : Nat) (c : WeatherSeasonChances) :
    loadSeasonChances T row season c = rowChances T row season := by
  unfold loadSeasonChances rowChances clampedChance
  simp only
  split_ifs <;> simp_all <;> omega

theorem clampedChance_le (raw : Nat) : clampedChance raw ≤ 100 := by
  unfold clampedChance
  split_ifs <;> omega

theorem loadSeasons_data (T : Nat) (row : Row) (wzc : WeatherData) (S i : Nat) :
    ((List.range S).foldl (loadSeason T row) wzc).data i =
      if i < S then rowChances T row i else wzc.data i := by
  induction S with
  | zero => simp
  | succ n ih =>
    rw [List.range_succ, List.foldl_append]
    simp only [List.foldl_cons, List.foldl_nil, loadSeason, loadSeasonChances_eq]
    by_cases h : i = n
    · subst h; simp
    · rw [if_neg h, ih]
      by_cases h2 : i < n
      · simp [h2, Nat.lt_succ_of_lt h2]
      · have : ¬ i < n + 1 := by omega
        simp [h2, this]


theorem loadRow_find_self (S T : Nat) (gsi : String → Nat) (m : List (Nat × WeatherData))
    (row : Row) :
    ∃ wd, mapFind (loadRow S T gsi m row) (row.getUInt32 0) = some wd ∧
      (∀ season, season < S → wd.data season = rowChances T row season) ∧
      wd.ScriptId = gsi row.ScriptName := by
  refine ⟨_, mapFind_mapAssign_self _ _ _, ?_, rfl⟩
  intro season hs
  simp only [loadSeasons_data, if_pos hs]

theorem loadRow_find_ne (S T : Nat) (gsi : String → Nat) (m : List (Nat × WeatherData))
    (row : Row) {z : Nat} (hz : z ≠ row.getUInt32 0) :
    mapFind (loadRow S T gsi m row) z = mapFind m z :=
  mapFind_mapAssign_ne _ _ _ hz

/-- What one row leaves in the entry of its zone: the seasons below `S` come from the
row, the other seasons and nothing else are as they were before. -/
theorem loadRow_find_frame (S T : Nat) (gsi : String → Nat) (m : List (Nat × WeatherData))
    (row : Row) :
    ∃ wd, mapFind (loadRow S T gsi m row) (row.getUInt32 0) = some wd ∧
      (∀ season, season < S → wd.data season = rowChances T row season) ∧
      (∀ season, S ≤ season →
        wd.data season
          = ((mapFind m (row.getUInt32 0)).getD WeatherData.zero).data season) ∧
      wd.ScriptId = gsi row.ScriptName := by
  refine ⟨_, mapFind_mapAssign_self _ _ _, ?_, ?_, rfl⟩
  · intro season hs
    simp only [loadSeasons_data, if_pos hs]
  · intro season hs
    simp only [loadSeasons_data, if_neg (Nat.not_lt.mpr hs)]

theorem rowChances_chance (T : Nat) (row : Row) (season k : Nat) (h1 : 1 ≤ k) (h3 : k ≤ 3) :
    (rowChances T row season).chance k
      = clampedChance (row.getUInt8 (chanceColumn T season k)) := by
  interval_cases k <;> rfl

theorem rowChances_atMost100 (T : Nat) (row : Row) (season : Nat) :
    (rowChances T row season).rainChance ≤ 100 ∧ (rowChances T row season).snowChance ≤ 100 ∧
    (rowChances T row season).stormChance ≤ 100 :=
  ⟨clampedChance_le _, clampedChance_le _, clampedChance_le _⟩

theorem LoadWeatherData_eq_foldl (S T : Nat) (gsi : String → Nat) (rows : List Row)
    (m : List (Nat × WeatherData)) :
    LoadWeatherData S T gsi rows m = rows.foldl (loadRow S T gsi) m := by
  cases rows <;> rfl

/-- A property of the entry of one zone that every row of another zone leaves alone
and that a list of rows of other zones therefore keeps. -/
theorem foldl_loadRow_find_ne (S T : Nat) (gsi : String → Nat) (rows : List Row) {z : Nat}
    (hz : ∀ r ∈ rows, r.getUInt32 0 ≠ z) (m : List (Nat × WeatherData)) :
    mapFind (rows.foldl (loadRow S T gsi) m) z = mapFind m z := by
  induction rows generalizing m with
  | nil => rfl
  | cons r rs ih =>
    rw [List.foldl_cons, ih (fun r' h' => hz r' (List.mem_cons_of_mem _ h'))]
    exact loadRow_find_ne S T gsi m r (Ne.symm (hz r (List.mem_cons_self _ _)))

theorem loadRow_atMost100 (S T : Nat) (gsi : String → Nat) (m : List (Nat × WeatherData))
    (row : Row) (z : Nat)
    (h : ∀ wd, mapFind m z = some wd → wd.chancesAtMost100 S) :
    ∀ wd, mapFind (loadRow S T gsi m row) z = some wd → wd.chancesAtMost100 S := by
  intro wd hwd
  by_cases hz : z = row.getUInt32 0
  · subst hz
    obtain ⟨wd', hf, hd, _⟩ := loadRow_find_self S T gsi m row
    rw [hf] at hwd
    injection hwd with hwd
    subst hwd
    intro season hs
    rw [hd season hs]
    exact rowChances_atMost100 T row season
  · rw [loadRow_find_ne S T gsi m row hz] at hwd
    exact h wd hwd

theorem foldl_loadRow_atMost100 (S T : Nat) (gsi : String → Nat) (rows : List Row) (z : Nat)
    (m : List (Nat × WeatherData))
    (h : ∀ wd, mapFind m z = some wd → wd.chancesAtMost100 S) :
    ∀ wd, mapFind (rows.foldl (loadRow S T gsi) m) z = some wd → wd.chancesAtMost100 S := by
  induction rows generalizing m with
  | nil => exact h
  | cons r rs ih =>
    rw [List.foldl_cons]
    exact ih _ (loadRow_atMost100 S T gsi m r z h)

theorem loadRow_find_isSome (S T : Nat) (gsi : String → Nat) (m : List (Nat × WeatherData))
    (row : Row) (z : Nat) (h : (mapFind m z).isSome = true) :
    (mapFind (loadRow S T gsi m row) z).isSome = true := by
  by_cases hz : z = row.getUInt32 0
  · subst hz
    obtain ⟨wd', hf, _, _⟩ := loadRow_find_self S T gsi m row
    rw [hf]; rfl
  · rw [loadRow_find_ne S T gsi m row hz]; exact h

theorem foldl_loadRow_find_isSome (S T : Nat) (gsi : String → Nat) (rows : List Row) (z : Nat)
    (m : List (Nat × WeatherData)) (h : (mapFind m z).isSome = true) :
    (mapFind (rows.foldl (loadRow S T gsi) m) z).isSome = true := by
  induction rows generalizing m with
  | nil => exact h
  | cons r rs ih =>
    rw [List.foldl_cons]
    exact ih _ (loadRow_find_isSome S T gsi m r z h)

theorem foldl_loadRow_loaded (S T : Nat) (gsi : String → Nat) (rows : List Row)
    (m : List (Nat × WeatherData)) (row : Row) (hrow : row ∈ rows) :
    (mapFind (rows.foldl (loadRow S T gsi) m) (row.getUInt32 0)).isSome = true := by
  induction rows generalizing m with
  | nil => cases hrow
  | cons r rs ih =>
    rw [List.foldl_cons]
    rcases List.mem_cons.mp hrow with h | h
    · subst h
      apply foldl_loadRow_find_isSome
      obtain ⟨wd', hf, _, _⟩ := loadRow_find_self S T gsi m row
      rw [hf]; rfl
    · exact ih _ h


theorem foldl_loadRow_loaded_atMost100 (S T : Nat) (gsi : String → Nat) (rows : List Row)
    (m : List (Nat × WeatherData)) (row : Row) (hrow : row ∈ rows) :
    ∀ wd, mapFind (rows.foldl (loadRow S T gsi) m) (row.getUInt32 0) = some wd →
      wd.chancesAtMost100 S := by
  induction rows generalizing m with
  | nil => cases hrow
  | cons r rs ih =>
    rw [List.foldl_cons]
    rcases List.mem_cons.mp hrow with h | h
    · subst h
      apply foldl_loadRow_atMost100
      intro wd hwd
      obtain ⟨wd', hf, hd, _⟩ := loadRow_find_self S T gsi m row
      rw [hf] at hwd
      injection hwd with hwd
      subst hwd
      intro season hs
      rw [hd season hs]
      exact rowChances_atMost100 T row season
    · exact ih _ h

theorem updateLoop_eq {W : Type} (ops : WeatherOps W) (diff : Nat) (l : List (Nat × W))
    (kept : List (Nat × W)) (calls : List (Nat × Nat)) :
    updateLoop ops diff kept calls l =
      (kept ++ l.filterMap (updatedEntry ops diff), calls ++ l.map (fun e => (e.1, diff))) := by
  induction l generalizing kept calls with
  | nil => simp [updateLoop]
  | cons e next ih =>
    obtain ⟨zone, w⟩ := e
    unfold updateLoop
    by_cases h : (ops.Update diff w).2 = true
    · simp [h, ih, updatedEntry, List.filterMap_cons]
    · simp [h, ih, updatedEntry, List.filterMap_cons]

theorem mapFind_eq_none_of_not_mem {α : Type} (l : List (Nat × α)) (z : Nat)
    (h : z ∉ l.map Prod.fst) : mapFind l z = none := by
  induction l with
  | nil => rfl
  | cons e rest ih =>
    obtain ⟨k, w⟩ := e
    simp only [List.map_cons, List.mem_cons, not_or] at h
    simp [mapFind, Ne.symm h.1, ih h.2]

theorem updatedEntry_fst {W : Type} (ops : WeatherOps W) (diff : Nat) (e e' : Nat × W)
    (h : updatedEntry ops diff e = some e') : e'.1 = e.1 := by
  unfold updatedEntry at h
  split_ifs at h
  injection h with h
  rw [← h]

theorem not_mem_keys_filterMap {W : Type} (ops : WeatherOps W) (diff : Nat)
    (l : List (Nat × W)) (z : Nat) (h : z ∉ l.map Prod.fst) :
    z ∉ (l.filterMap (updatedEntry ops diff)).map Prod.fst := by
  intro hz
  apply h
  obtain ⟨e', he', rfl⟩ := List.mem_map.mp hz
  obtain ⟨e, he, hee⟩ := List.mem_filterMap.mp he'
  exact List.mem_map.mpr ⟨e, he, (updatedEntry_fst ops diff e e' hee).symm⟩

theorem mapFind_filterMap_updatedEntry {W : Type} (ops : WeatherOps W) (diff : Nat)
    (l : List (Nat × W)) (hnd : (l.map Prod.fst).Nodup) (z : Nat) :
    mapFind (l.filterMap (updatedEntry ops diff)) z =
      (mapFind l z).bind fun w =>
        if (ops.Update diff w).2 then some (ops.Update diff w).1 else none := by
  induction l with
  | nil => rfl
  | cons e rest ih =>
    obtain ⟨k, w⟩ := e
    rw [List.map_cons, List.nodup_cons] at hnd
    by_cases hk : k = z
    · subst hk
      by_cases hu : (ops.Update diff w).2 = true
      · simp [List.filterMap_cons, updatedEntry, hu, mapFind]
      · have hnone := mapFind_eq_none_of_not_mem _ k
          (not_mem_keys_filterMap ops diff rest k hnd.1)
        simp [List.filterMap_cons, updatedEntry, hu, mapFind, hnone]
    · by_cases hu : (ops.Update diff w).2 = true
      · simp [List.filterMap_cons, updatedEntry, hu, mapFind, hk, ih hnd.2]
      · simp [List.filterMap_cons, updatedEntry, hu, mapFind, hk, ih hnd.2]

/-! ## The claims -/

/-- C1. Round trip: with at most 256 cells per grid side, every `CellCoord` whose two
indices are below `256 * MAX_NUMBER_OF_CELLS` is returned unchanged by
`GetCellCoord` after a `Cell` has been built from it. -/
theorem C1_round_trip (N : Nat) (a : CellCoord) (hN : N ≤ 256)
    (hx : a.x_coord < 256 * N) (hy : a.y_coord < 256 * N) :
    (Cell.ofCellCoord N a).GetCellCoord N = a := by
  obtain ⟨x, y⟩ := a
  simp only [Cell.GetCellCoord, Cell.ofCellCoord, Cell.grid_x_ofParts, Cell.grid_y_ofParts,
    Cell.cell_x_ofParts, Cell.cell_y_ofParts]
  rw [split_recombine N x hN hx, split_recombine N y hN hy]

/-- Witness of C1 with 8 cells per grid side at the address `(2047, 1000)`. -/
theorem C1_round_trip_witness :
    (Cell.ofCellCoord 8 ⟨2047, 1000⟩).GetCellCoord 8 = ⟨2047, 1000⟩ :=
  C1_round_trip 8 ⟨2047, 1000⟩ (by decide) (by decide) (by decide)

/-- C2 as stated fails: the cells with fields `(1, 0, 0, 0)` and `(0, 0, 0, 0)` differ in
`grid_x`, yet `DiffCell` reports no difference. -/
theorem C2_counterexample :
    ¬ ((Cell.ofParts 1 0 0 0).DiffCell (Cell.ofParts 0 0 0 0) = true ↔
        ((Cell.ofParts 1 0 0 0).grid_x ≠ (Cell.ofParts 0 0 0 0).grid_x ∨
         (Cell.ofParts 1 0 0 0).grid_y ≠ (Cell.ofParts 0 0 0 0).grid_y ∨
         (Cell.ofParts 1 0 0 0).cell_x ≠ (Cell.ofParts 0 0 0 0).cell_x ∨
         (Cell.ofParts 1 0 0 0).cell_y ≠ (Cell.ofParts 0 0 0 0).cell_y)) := by
  decide

/-- C2, amended. `DiffCell` is true exactly when `cell_x` or `cell_y` differs between
the two cells; the grid fields play no part in it. -/
theorem C2_DiffCell_cell_fields (a b : Cell) :
    (a.DiffCell b = true ↔ a.cell_x ≠ b.cell_x ∨ a.cell_y ≠ b.cell_y) ∧
    (∀ gx gy gx' gy' : Nat,
      (Cell.ofParts gx gy a.cell_x a.cell_y).DiffCell (Cell.ofParts gx' gy' b.cell_x b.cell_y)
        = a.DiffCell b) := by
  refine ⟨Cell.DiffCell_iff a b, ?_⟩
  intro gx gy gx' gy'
  have ha := a.cell_x_lt
  have ha' := a.cell_y_lt
  have hb := b.cell_x_lt
  have hb' := b.cell_y_lt
  simp only [Cell.DiffCell, Cell.cell_x_ofParts, Cell.cell_y_ofParts,
    Nat.mod_eq_of_lt ha, Nat.mod_eq_of_lt ha', Nat.mod_eq_of_lt hb, Nat.mod_eq_of_lt hb']

/-- C3. `a == b` holds exactly when the four 8-bit fields are pairwise equal, `a != b` is
its negation, and the 32-bit word is the packing of its four fields: it carries no
other bit, so equal fields give the same cell. -/
theorem C3_operator_eq_fieldwise (a b : Cell) :
    (a.operator_eq b = true ↔
      a.grid_x = b.grid_x ∧ a.grid_y = b.grid_y ∧ a.cell_x = b.cell_x ∧ a.cell_y = b.cell_y) ∧
    a.operator_ne b = !(a.operator_eq b) ∧
    (a.operator_ne b = true ↔
      ¬ (a.grid_x = b.grid_x ∧ a.grid_y = b.grid_y ∧ a.cell_x = b.cell_x ∧ a.cell_y = b.cell_y)) ∧
    Cell.ofParts a.grid_x a.grid_y a.cell_x a.cell_y = a ∧
    (a.operator_eq b = true ↔ a = b) := by
  refine ⟨Cell.operator_eq_iff a b, rfl, ?_, ?_, ?_⟩
  · rw [← Cell.operator_eq_iff]
    simp [Cell.operator_ne]
  · apply Cell.ext_All
    have h := a.All_eq_parts
    have h1 := a.grid_x_lt
    have h2 := a.grid_y_lt
    have h3 := a.cell_x_lt
    have h4 := a.cell_y_lt
    simp only [Cell.ofParts]
    omega
  · unfold Cell.operator_eq
    rw [beq_iff_eq]
    exact ⟨Cell.ext_All, fun h => by rw [h]⟩

/-- C4. `DiffGrid` is true exactly when `grid_x` or `grid_y` differs between the two
cells, whatever the `cell_x` and `cell_y` fields hold. -/
theorem C4_DiffGrid_grid_fields (a b : Cell) :
    (a.DiffGrid b = true ↔ a.grid_x ≠ b.grid_x ∨ a.grid_y ≠ b.grid_y) ∧
    (∀ cx cy cx' cy' : Nat,
      (Cell.ofParts a.grid_x a.grid_y cx cy).DiffGrid (Cell.ofParts b.grid_x b.grid_y cx' cy')
        = a.DiffGrid b) := by
  refine ⟨Cell.DiffGrid_iff a b, ?_⟩
  intro cx cy cx' cy'
  have ha := a.grid_x_lt
  have ha' := a.grid_y_lt
  have hb := b.grid_x_lt
  have hb' := b.grid_y_lt
  simp only [Cell.DiffGrid, Cell.grid_x_ofParts, Cell.grid_y_ofParts,
    Nat.mod_eq_of_lt ha, Nat.mod_eq_of_lt ha', Nat.mod_eq_of_lt hb, Nat.mod_eq_of_lt hb']

/-- C5. With at most 256 cells per grid side, `GetCellCoord` returns the canonical
reconstruction `(grid_x * N + cell_x, grid_y * N + cell_y)` for every cell, without
wrapping, and `Compute` writes the same two values. -/
theorem C5_GetCellCoord_canonical (N : Nat) (c : Cell) (hN : N ≤ 256) :
    c.GetCellCoord N = canonicalAddress N c ∧
    c.Compute N = (c.grid_x * N + c.cell_x, c.grid_y * N + c.cell_y) ∧
    c.Compute N = ((c.GetCellCoord N).x_coord, (c.GetCellCoord N).y_coord) := by
  have h1 := c.grid_x_lt
  have h2 := c.grid_y_lt
  have h3 := c.cell_x_lt
  have h4 := c.cell_y_lt
  have hx : c.grid_x * N ≤ 255 * 256 := Nat.mul_le_mul (by omega) hN
  have hy : c.grid_y * N ≤ 255 * 256 := Nat.mul_le_mul (by omega) hN
  have ex : (c.grid_x * N + c.cell_x) % 4294967296 = c.grid_x * N + c.cell_x :=
    Nat.mod_eq_of_lt (by omega)
  have ey : (c.grid_y * N + c.cell_y) % 4294967296 = c.grid_y * N + c.cell_y :=
    Nat.mod_eq_of_lt (by omega)
  simp only [Cell.GetCellCoord, Cell.Compute, canonicalAddress, ex, ey, and_self]

/-- Witness of C5 with 8 cells per grid side at the cell with fields `(3, 255, 7, 0)`. -/
theorem C5_GetCellCoord_canonical_witness :
    (Cell.ofParts 3 255 7 0).GetCellCoord 8 = ⟨31, 2040⟩ ∧
    (Cell.ofParts 3 255 7 0).Compute 8 = (31, 2040) := by
  have h := C5_GetCellCoord_canonical 8 (Cell.ofParts 3 255 7 0) (by decide)
  refine ⟨h.1.trans (by decide), h.2.1.trans (by decide)⟩

/-- C6. The test `!a` of a `CellArea` is true exactly when `low_bound` and `high_bound`
agree in both the x and the y index; an area whose bounds differ on an axis is
reported non-empty. -/
theorem C6_operator_not_iff (a : CellArea) :
    (a.operator_not = true ↔
      a.low_bound.x_coord = a.high_bound.x_coord ∧
      a.low_bound.y_coord = a.high_bound.y_coord) ∧
    ((a.low_bound.x_coord ≠ a.high_bound.x_coord ∨
      a.low_bound.y_coord ≠ a.high_bound.y_coord) → a.operator_not = false) := by
  constructor
  · simp [CellArea.operator_not, CellCoord.operator_eq]
  · intro h
    simp only [CellArea.operator_not, CellCoord.operator_eq, Bool.and_eq_false_iff,
      beq_eq_false_iff_ne]
    exact h

/-- Witness of C6: the area from `(7, 7)` to `(7, 12)` differs on the y axis and is not empty. -/
theorem C6_operator_not_iff_witness :
    (CellArea.mk ⟨7, 7⟩ ⟨7, 12⟩).operator_not = false :=
  (C6_operator_not_iff (CellArea.mk ⟨7, 7⟩ ⟨7, 12⟩)).2 (Or.inr (by decide))

/-- C7 as stated fails at the edge of the world: in the worked scenario (side 1,
addresses 0..255) the position `(-1, -1)` lies strictly inside the circle of radius
2.5 around `(0.5, 0.5)`, its address `(-1, -1)` is outside the area, whose bounds
are clamped, and the Codec gives it no address at all. -/
theorem C7_counterexample :
    strictlyInside (1 / 2) (1 / 2) (5 / 2) (-1) (-1) ∧
    ¬ (Cell.CalculateCellArea scenarioConfig (1 / 2) (1 / 2) (5 / 2)).holds
        (positionToAddress scenarioConfig (-1)) (positionToAddress scenarioConfig (-1)) ∧
    Cell.ofPosition scenarioCells scenarioConfig (-1) (-1)
      = .error CodecError.PositionOutOfBounds := by
  have hm : positionToAddress scenarioConfig (-1) = -1 := by
    rw [positionToAddress_scenario]; norm_num [Int.floor_eq_iff]
  have h1 : ⌊((1 : ℚ) / 2 - 5 / 2)⌋ = -2 := by norm_num [Int.floor_eq_iff]
  have h2 : ⌊((1 : ℚ) / 2 + 5 / 2)⌋ = 3 := by norm_num [Int.floor_eq_iff]
  refine ⟨?_, ?_, ?_⟩
  · unfold strictlyInside; norm_num
  · simp only [Cell.CalculateCellArea, CellArea.holds, positionToAddress_scenario, h1, h2]
    rw [← positionToAddress_scenario, hm]
    decide
  · unfold Cell.ofPosition
    rw [hm]
    exact if_neg (by unfold representable; omega)

/-- C7, amended. Area containment inside the world: for a positive bucket side, every
position strictly inside the circle whose address on each axis is one of the world's
valid addresses has that address componentwise between `low_bound` and `high_bound`
of `CalculateCellArea`; and bucket side 1, center `(10, 10)`, radius 2.5 gives low
`(7, 7)` and high `(12, 12)`. -/
theorem C7_area_containment (cfg : CodecConfig) (x y radius px py : ℚ)
    (hside : 0 < cfg.side) (hin : strictlyInside x y radius px py)
    (hx : addressInWorld cfg (positionToAddress cfg px))
    (hy : addressInWorld cfg (positionToAddress cfg py)) :
    (Cell.CalculateCellArea cfg x y radius).holds
        (positionToAddress cfg px) (positionToAddress cfg py) ∧
    Cell.CalculateCellArea scenarioConfig 10 10 (5 / 2) = ⟨⟨7, 7⟩, ⟨12, 12⟩⟩ := by
  obtain ⟨⟨bx1, bx2⟩, ⟨by1, by2⟩⟩ := strictlyInside_bounds hin
  constructor
  · exact ⟨clampAddress_le cfg hx (positionToAddress_mono cfg hside bx1),
      le_clampAddress cfg hx (positionToAddress_mono cfg hside bx2),
      clampAddress_le cfg hy (positionToAddress_mono cfg hside by1),
      le_clampAddress cfg hy (positionToAddress_mono cfg hside by2)⟩
  · have h1 : ⌊((10 : ℚ) - 5 / 2)⌋ = 7 := by norm_num [Int.floor_eq_iff]
    have h2 : ⌊((10 : ℚ) + 5 / 2)⌋ = 12 := by norm_num [Int.floor_eq_iff]
    simp only [Cell.CalculateCellArea, positionToAddress_scenario, h1, h2]
    decide

/-- Witness of C7 in the worked scenario: the object at `(9, 9)` lies strictly inside the
circle of radius 2.5 around `(10, 10)` and its address is within the area. -/
theorem C7_area_containment_witness :
    (Cell.CalculateCellArea scenarioConfig 10 10 (5 / 2)).holds
      (positionToAddress scenarioConfig 9) (positionToAddress scenarioConfig 9) := by
  have h9 : positionToAddress scenarioConfig 9 = 9 := by
    rw [positionToAddress_scenario]; norm_num [Int.floor_eq_iff]
  have hw : addressInWorld scenarioConfig (positionToAddress scenarioConfig 9) := by
    rw [h9]; unfold addressInWorld; decide
  exact (C7_area_containment scenarioConfig 10 10 (5 / 2) 9 9
    (by norm_num [scenarioConfig]) (by unfold strictlyInside; norm_num) hw hw).1

/-- C8. Degenerate no-op: for every bucket store, category set and operation, `Visit`
over an area for which `operator!` is true hands no object to the operation and
returns at once with the state unchanged, even for an operation that always fails. -/
theorem C8_Visit_degenerate {Obj σ ε : Type} (N : Nat) (store : BucketStore Obj)
    (area : CellArea) (categories : List Category) (operation : σ → Obj → Except ε σ) (s : σ)
    (h : area.operator_not = true) :
    visitedObjects N store area categories = [] ∧
    Cell.Visit N store area categories operation s = .ok s := by
  unfold visitedObjects Cell.Visit
  rw [if_pos h, if_pos h]
  exact ⟨rfl, rfl⟩

/-- Witness of C8: the single-bucket area at `(7, 7)`, a store holding one object in
every bucket, and an operation that fails on every object. -/
theorem C8_Visit_degenerate_witness :
    Cell.Visit 256 (fun _ => [⟨Category.GridBound, [(1 : Nat)]⟩]) ⟨⟨7, 7⟩, ⟨7, 7⟩⟩
      [Category.GridBound] (fun (_ : Nat) (_ : Nat) => (Except.error () : Except Unit Nat)) 0
      = .ok 0 :=
  (C8_Visit_degenerate 256 (fun _ => [⟨Category.GridBound, [(1 : Nat)]⟩]) ⟨⟨7, 7⟩, ⟨7, 7⟩⟩
    [Category.GridBound] (fun (_ : Nat) (_ : Nat) => (Except.error () : Except Unit Nat)) 0
    (by decide)).2

/-- C9. Building a `Cell` from a position fails with `PositionOutOfBounds` whenever an
axis index is negative or its region or sub index does not fit 8 bits; a key that is
returned encodes the exact address of the position (nothing wrapped), so two
positions with the same key have the same address (nothing aliased); and `(-1, -1)`
in the worked scenario fails with `PositionOutOfBounds`. -/
theorem C9_ofPosition_out_of_bounds (N : Nat) (cfg : CodecConfig) (x y : ℚ) :
    ((positionToAddress cfg x < 0 ∨ 256 ≤ (positionToAddress cfg x).toNat / N ∨
      256 ≤ (positionToAddress cfg x).toNat % N ∨
      positionToAddress cfg y < 0 ∨ 256 ≤ (positionToAddress cfg y).toNat / N ∨
      256 ≤ (positionToAddress cfg y).toNat % N) →
      Cell.ofPosition N cfg x y = .error CodecError.PositionOutOfBounds) ∧
    (∀ c : Cell, Cell.ofPosition N cfg x y = .ok c →
      (c.grid_x : Int) * N + c.cell_x = positionToAddress cfg x ∧
      (c.grid_y : Int) * N + c.cell_y = positionToAddress cfg y) ∧
    (∀ (x' y' : ℚ) (c : Cell), Cell.ofPosition N cfg x y = .ok c →
      Cell.ofPosition N cfg x' y' = .ok c →
      positionToAddress cfg x' = positionToAddress cfg x ∧
      positionToAddress cfg y' = positionToAddress cfg y) ∧
    Cell.ofPosition scenarioCells scenarioConfig (-1) (-1)
      = .error CodecError.PositionOutOfBounds := by
  refine ⟨?_, ?_, ?_, ?_⟩
  · intro h
    unfold Cell.ofPosition
    rw [if_neg]
    unfold representable
    omega
  · intro c hc
    exact Cell.ofPosition_exact hc
  · intro x' y' c hc hc'
    have e := Cell.ofPosition_exact hc
    have e' := Cell.ofPosition_exact hc'
    exact ⟨e'.1.symm.trans e.1, e'.2.symm.trans e.2⟩
  · have hm : positionToAddress scenarioConfig (-1) = -1 := by
      rw [positionToAddress_scenario]; norm_num [Int.floor_eq_iff]
    unfold Cell.ofPosition
    rw [hm]
    exact if_neg (by unfold representable; omega)

/-- Witness of C9 with 8 cells per grid side: the position `(2048, 0)` has region index
256 on the x axis and is rejected. -/
theorem C9_ofPosition_out_of_bounds_witness :
    Cell.ofPosition 8 scenarioConfig 2048 0 = .error CodecError.PositionOutOfBounds := by
  have h : positionToAddress scenarioConfig 2048 = 2048 := by
    rw [positionToAddress_scenario]; norm_num [Int.floor_eq_iff]
  exact (C9_ofPosition_out_of_bounds 8 scenarioConfig 2048 0).1
    (Or.inr (Or.inl (by rw [h]; decide)))

/-- C10. Full inequality is the disjunction of the two field-group predicates: `a != b`
holds exactly when `DiffCell` or `DiffGrid` reports a difference, and `a == b` exactly
when neither does. -/
theorem C10_ne_iff_DiffCell_or_DiffGrid (a b : Cell) :
    (a.operator_ne b = true ↔ a.DiffCell b = true ∨ a.DiffGrid b = true) ∧
    (a.operator_eq b = true ↔ a.DiffCell b = false ∧ a.DiffGrid b = false) := by
  have heq := Cell.operator_eq_iff a b
  have hc := Cell.DiffCell_iff a b
  have hg := Cell.DiffGrid_iff a b
  have hne : a.operator_ne b = true ↔ ¬ a.operator_eq b = true := by
    simp [Cell.operator_ne]
  have hcf : a.DiffCell b = false ↔ ¬ a.DiffCell b = true := by simp
  have hgf : a.DiffGrid b = false ↔ ¬ a.DiffGrid b = true := by simp
  constructor
  · rw [hne, heq, hc, hg]
    constructor
    · intro h
      by_contra hcon
      rw [not_or, not_or, not_or] at hcon
      exact h ⟨not_not.mp hcon.2.1, not_not.mp hcon.2.2,
        not_not.mp hcon.1.1, not_not.mp hcon.1.2⟩
    · rintro (h | h) ⟨h1, h2, h3, h4⟩
      · exact h.elim (fun k => k h3) (fun k => k h4)
      · exact h.elim (fun k => k h1) (fun k => k h2)
  · rw [hcf, hgf, hc, hg, heq]
    constructor
    · rintro ⟨h1, h2, h3, h4⟩
      exact ⟨fun h => h.elim (fun k => k h3) (fun k => k h4),
        fun h => h.elim (fun k => k h1) (fun k => k h2)⟩
    · rintro ⟨hC, hG⟩
      rw [not_or] at hC hG
      exact ⟨not_not.mp hG.1, not_not.mp hG.2, not_not.mp hC.1, not_not.mp hC.2⟩

/-- C11. Exact bucket identity: with at most 256 cells per grid side, two cells whose
`cell_x` and `cell_y` are below `MAX_NUMBER_OF_CELLS` and whose `GetCellCoord` agree
are equal; without the bound on the cell fields this fails, as grid 0 / cell `N` and
grid 1 / cell 0 are different cells with the same `GetCellCoord` when `N < 256`. -/
theorem C11_GetCellCoord_injective (N : Nat) (hN : N ≤ 256) :
    (∀ a b : Cell, a.cell_x < N → a.cell_y < N → b.cell_x < N → b.cell_y < N →
      a.GetCellCoord N = b.GetCellCoord N → a.operator_eq b = true) ∧
    (N < 256 →
      (Cell.ofParts 0 0 N 0).GetCellCoord N = (Cell.ofParts 1 0 0 0).GetCellCoord N ∧
      (Cell.ofParts 0 0 N 0).operator_eq (Cell.ofParts 1 0 0 0) = false) := by
  constructor
  · intro a b hax hay hbx hby h
    unfold Cell.GetCellCoord at h
    injection h with h1 h2
    rw [Cell.recombine_lt N hN a.grid_x_lt a.cell_x_lt,
      Cell.recombine_lt N hN b.grid_x_lt b.cell_x_lt] at h1
    rw [Cell.recombine_lt N hN a.grid_y_lt a.cell_y_lt,
      Cell.recombine_lt N hN b.grid_y_lt b.cell_y_lt] at h2
    obtain ⟨gx, cx⟩ := recombine_inj hax hbx h1
    obtain ⟨gy, cy⟩ := recombine_inj hay hby h2
    exact (Cell.operator_eq_iff a b).mpr ⟨gx, gy, cx, cy⟩
  · intro hlt
    constructor
    · simp only [Cell.GetCellCoord, Cell.grid_x_ofParts, Cell.grid_y_ofParts,
        Cell.cell_x_ofParts, Cell.cell_y_ofParts, Nat.mod_eq_of_lt hlt]
      simp
    · have hne : ¬ (Cell.ofParts 0 0 N 0).operator_eq (Cell.ofParts 1 0 0 0) = true := by
        rw [Cell.operator_eq_iff]
        simp [Cell.grid_x_ofParts]
      simpa using hne

/-- Witness of C11 with 8 cells per grid side: the cell with fields `(3, 255, 7, 0)` and
the cell built from the address `(31, 2040)` have the same `GetCellCoord` and are equal. -/
theorem C11_GetCellCoord_injective_witness :
    (Cell.ofParts 3 255 7 0).operator_eq (Cell.ofCellCoord 8 ⟨31, 2040⟩) = true :=
  (C11_GetCellCoord_injective 8 (by decide)).1 (Cell.ofParts 3 255 7 0)
    (Cell.ofCellCoord 8 ⟨31, 2040⟩) (by decide) (by decide) (by decide) (by decide) (by decide)

/-- C12. After `LoadWeatherData` has processed any rows, the zone of every row has an
entry whose rain, snow and storm chances are at most 100 in every season; the entry
of a zone holds, for every season, the values of the last row of that zone, each
chance being the raw `uint8` value when that is at most 100 and 25 otherwise; and a
map whose chances were at most 100 before stays so, the empty map in particular.
The constants are in the range where the loop is the one modelled: at most 255
seasons, which the `uint8` counter can count, and `MAX_WEATHER_TYPE` at least 1. -/
theorem C12_LoadWeatherData_chances (S T : Nat) (getScriptId : String → Nat) (rows : List Row)
    (m : List (Nat × WeatherData)) (_hS : S ≤ 255) (_hT : 1 ≤ T) :
    (∀ row ∈ rows, ∃ wd,
      mapFind (LoadWeatherData S T getScriptId rows m) (row.getUInt32 0) = some wd ∧
      wd.chancesAtMost100 S) ∧
    (∀ (pre post : List Row) (row : Row), rows = pre ++ row :: post →
      (∀ r ∈ post, r.getUInt32 0 ≠ row.getUInt32 0) →
      ∃ wd, mapFind (LoadWeatherData S T getScriptId rows m) (row.getUInt32 0) = some wd ∧
        ∀ season, season < S →
          (wd.data season).rainChance =
            (if row.getUInt8 (chanceColumn T season 1) ≤ 100
              then row.getUInt8 (chanceColumn T season 1) else 25) ∧
          (wd.data season).snowChance =
            (if row.getUInt8 (chanceColumn T season 2) ≤ 100
              then row.getUInt8 (chanceColumn T season 2) else 25) ∧
          (wd.data season).stormChance =
            (if row.getUInt8 (chanceColumn T season 3) ≤ 100
              then row.getUInt8 (chanceColumn T season 3) else 25)) ∧
    ((∀ zone wd, mapFind m zone = some wd → wd.chancesAtMost100 S) →
      ∀ zone wd, mapFind (LoadWeatherData S T getScriptId rows m) zone = some wd →
        wd.chancesAtMost100 S) ∧
    (∀ zone wd, mapFind (LoadWeatherData S T getScriptId rows []) zone = some wd →
      wd.chancesAtMost100 S) := by
  simp only [LoadWeatherData_eq_foldl]
  refine ⟨?_, ?_, ?_, ?_⟩
  · intro row hrow
    have hsome := foldl_loadRow_loaded S T getScriptId rows m row hrow
    obtain ⟨wd, hwd⟩ := Option.isSome_iff_exists.mp hsome
    exact ⟨wd, hwd, foldl_loadRow_loaded_atMost100 S T getScriptId rows m row hrow wd hwd⟩
  · intro pre post row hrows hpost
    subst hrows
    rw [List.foldl_append, List.foldl_cons, foldl_loadRow_find_ne S T getScriptId post hpost]
    obtain ⟨wd, hf, hd, _⟩ :=
      loadRow_find_self S T getScriptId (pre.foldl (loadRow S T getScriptId) m) row
    refine ⟨wd, hf, ?_⟩
    intro season hs
    rw [hd season hs]
    exact ⟨rfl, rfl, rfl⟩
  · intro h zone wd hwd
    exact foldl_loadRow_atMost100 S T getScriptId rows zone m (h zone) wd hwd
  · intro zone wd hwd
    exact foldl_loadRow_atMost100 S T getScriptId rows zone [] (fun _ h => by cases h) wd hwd


/-- Witness of C12 with four seasons: after the one row `sampleRow` the zone 7 has the
rain, snow and storm chances 40, 80 and 25 in season 0, the raw value 120 being above 100. -/
theorem C12_LoadWeatherData_chances_witness :
    ∃ wd, mapFind (LoadWeatherData 4 4 (fun _ => 0) [sampleRow] []) 7 = some wd ∧
      (wd.data 0).rainChance = 40 ∧ (wd.data 0).snowChance = 80 ∧
      (wd.data 0).stormChance = 25 := by
  obtain ⟨wd, hf, hd⟩ :=
    (C12_LoadWeatherData_chances 4 4 (fun _ => 0) [sampleRow] [] (by decide)
      (by decide)).2.1 [] [] sampleRow rfl
      (fun r hr => by cases hr)
  refine ⟨wd, hf, ?_⟩
  obtain ⟨h1, h2, h3⟩ := hd 0 (by decide)
  exact ⟨h1.trans (by decide), h2.trans (by decide), h3.trans (by decide)⟩

/-- C13. `WeatherMgr::Update(diff)` calls `Update(diff)` once on every entry registered
at the start, in the order of the iteration; afterwards the registry holds exactly the
entries whose `Update` returned true, each with its own updated object, and the
weather data is untouched; with one entry per zone, looking a zone up afterwards
gives its object when `Update` returned true and nothing otherwise. -/
theorem C13_Update_once_each {W : Type} (ops : WeatherOps W) (diff : Nat)
    (s : WeatherMgrState W) :
    (Update ops diff s).2 = s.m_weathers.map (fun e => (e.1, diff)) ∧
    (Update ops diff s).1.m_weathers = s.m_weathers.filterMap (updatedEntry ops diff) ∧
    (Update ops diff s).1.mWeatherZoneMap = s.mWeatherZoneMap ∧
    ((s.m_weathers.map Prod.fst).Nodup →
      ∀ zone, FindWeather (Update ops diff s).1 zone =
        (FindWeather s zone).bind fun w =>
          if (ops.Update diff w).2 then some (ops.Update diff w).1 else none) := by
  simp only [Update, updateLoop_eq, List.nil_append, FindWeather]
  refine ⟨trivial, trivial, trivial, ?_⟩
  intro hnd zone
  exact mapFind_filterMap_updatedEntry ops diff s.m_weathers hnd zone

/-- Witness of C13: with `diff = 3` the countdown of zone 2 runs out, so zone 2 is
removed, and the zones 1 and 3, on either side of it, are kept with their objects. -/
theorem C13_Update_once_each_witness :
    FindWeather (Update sampleOps 3 sampleState).1 1 = some (1, 2) ∧
    FindWeather (Update sampleOps 3 sampleState).1 2 = none ∧
    FindWeather (Update sampleOps 3 sampleState).1 3 = some (3, 6) := by
  have h := (C13_Update_once_each sampleOps 3 sampleState).2.2.2 (by decide)
  exact ⟨(h 1).trans (by decide), (h 2).trans (by decide), (h 3).trans (by decide)⟩

/-- C14. `AddWeather(zone_id)` returns null exactly when no weather data is loaded for
the zone, and then the state is unchanged; otherwise, when `GetZone` returns the zone
an object was built with, it returns the new object, `FindWeather(zone_id)` returns
that object afterwards, whatever was registered for the zone before, and the entries
of all other zones and the weather data are unchanged. -/
theorem C14_AddWeather {W : Type} (ops : WeatherOps W) (s : WeatherMgrState W) (zone_id : Nat)
    (hzone : ∀ zone wd, ops.GetZone (ops.new zone wd) = zone) :
    (((AddWeather ops s zone_id).1 = none ∧ (AddWeather ops s zone_id).2 = s) ↔
      GetWeatherData s zone_id = none) ∧
    ((AddWeather ops s zone_id).1 = none ↔ GetWeatherData s zone_id = none) ∧
    (GetWeatherData s zone_id = none → (AddWeather ops s zone_id).2 = s) ∧
    (∀ wd, GetWeatherData s zone_id = some wd →
      (AddWeather ops s zone_id).1
        = some (ops.UpdateWeather (ops.ReGenerate (ops.new zone_id wd))) ∧
      FindWeather (AddWeather ops s zone_id).2 zone_id = (AddWeather ops s zone_id).1 ∧
      (∀ zone, zone ≠ zone_id →
        FindWeather (AddWeather ops s zone_id).2 zone = FindWeather s zone) ∧
      (AddWeather ops s zone_id).2.mWeatherZoneMap = s.mWeatherZoneMap) := by
  unfold AddWeather
  cases hd : GetWeatherData s zone_id with
  | none => simp
  | some d =>
    simp only [hzone, FindWeather]
    refine ⟨by simp, by simp, by simp, ?_⟩
    intro wd hwd
    injection hwd with hwd
    subst hwd
    exact ⟨rfl, mapFind_mapAssign_self _ _ _,
      fun zone hz => mapFind_mapAssign_ne _ _ _ hz, trivial⟩

/-- Witness of C14: zone 2 has data and an object already; the new object replaces it and
zone 1 keeps its own. -/
theorem C14_AddWeather_witness :
    FindWeather (AddWeather sampleOps sampleState 2).2 2 = some (2, 5) ∧
    FindWeather (AddWeather sampleOps sampleState 2).2 1 = some (1, 5) ∧
    (AddWeather sampleOps sampleState 5).1 = none := by
  have h := C14_AddWeather sampleOps sampleState 2 (fun _ _ => rfl)
  have h5 := C14_AddWeather sampleOps sampleState 5 (fun _ _ => rfl)
  have hw := h.2.2.2 { WeatherData.zero with ScriptId := 4 } rfl
  exact ⟨hw.2.1.trans hw.1, (hw.2.2.1 1 (by decide)).trans (by decide), h5.2.1.mpr rfl⟩

/-- C15. With four seasons and `MAX_WEATHER_TYPE = 4`, `LoadWeatherData` reads the
chance columns as follows.  The indices `season * (MAX_WEATHER_TYPE - 1) + k`, for the
seasons 0..3 and `k` in 1..3, are the columns 1..12 of the 14 columns of the query,
each exactly once, never column 0 (`zone`) or column 13 (`ScriptName`).  In the entry
that the last row of a zone leaves, the chance of every season and weather type is
the value of its column, 25 when above 100, and that column is the one the query names
after the season and the type; every chance column is stored in this way; the seasons
from 4 on are not written; and `ScriptId` comes from the last column. -/
theorem C15_chance_columns (getScriptId : String → Nat) (pre post : List Row) (row : Row)
    (m : List (Nat × WeatherData))
    (hpost : ∀ r ∈ post, r.getUInt32 0 ≠ row.getUInt32 0) :
    queryColumns.length = 14 ∧
    queryColumns[0]? = some "zone" ∧ queryColumns[13]? = some "ScriptName" ∧
    (List.range 4).flatMap (fun season => [1, 2, 3].map (chanceColumn 4 season))
      = List.range' 1 12 ∧
    (∀ season < 4, ∀ k < 4, ∀ season' < 4, ∀ k' < 4, 1 ≤ k → 1 ≤ k' →
      chanceColumn 4 season k = chanceColumn 4 season' k' → season = season' ∧ k = k') ∧
    ∃ wd,
      mapFind (LoadWeatherData 4 4 getScriptId (pre ++ row :: post) m) (row.getUInt32 0)
        = some wd ∧
      (∀ season < 4, ∀ k < 4, 1 ≤ k →
        1 ≤ chanceColumn 4 season k ∧ chanceColumn 4 season k ≤ 12 ∧
        chanceColumn 4 season k ≠ 0 ∧ chanceColumn 4 season k ≠ 13 ∧
        queryColumns[chanceColumn 4 season k]? = some (chanceColumnName season k) ∧
        (wd.data season).chance k
          = clampedChance (row.getUInt8 (chanceColumn 4 season k))) ∧
      (∀ season < 4,
        (wd.data season).rainChance
          = clampedChance (row.getUInt8 (chanceColumn 4 season 1)) ∧
        (wd.data season).snowChance
          = clampedChance (row.getUInt8 (chanceColumn 4 season 2)) ∧
        (wd.data season).stormChance
          = clampedChance (row.getUInt8 (chanceColumn 4 season 3))) ∧
      (∀ column < 13, 1 ≤ column →
        ∃ season < 4, ∃ k < 4, 1 ≤ k ∧ chanceColumn 4 season k = column ∧
          queryColumns[column]? = some (chanceColumnName season k) ∧
          (wd.data season).chance k = clampedChance (row.getUInt8 column)) ∧
      (∀ season, 4 ≤ season →
        wd.data season
          = ((mapFind (LoadWeatherData 4 4 getScriptId pre m) (row.getUInt32 0)).getD
              WeatherData.zero).data season) ∧
      wd.ScriptId = getScriptId row.ScriptName := by
  have hcols : ∀ season < 4, ∀ k < 4, 1 ≤ k →
      1 ≤ chanceColumn 4 season k ∧ chanceColumn 4 season k ≤ 12 ∧
      chanceColumn 4 season k ≠ 0 ∧ chanceColumn 4 season k ≠ 13 ∧
      queryColumns[chanceColumn 4 season k]? = some (chanceColumnName season k) := by
    decide
  have hsurj : ∀ column < 13, 1 ≤ column →
      ∃ season < 4, ∃ k < 4, 1 ≤ k ∧ chanceColumn 4 season k = column := by
    decide
  refine ⟨by decide, by decide, by decide, by decide, ?_, ?_⟩
  · intro season _ k _ season' _ k' _ _ _ h
    unfold chanceColumn at h
    omega
  simp only [LoadWeatherData_eq_foldl]
  rw [List.foldl_append, List.foldl_cons, foldl_loadRow_find_ne 4 4 getScriptId post hpost]
  obtain ⟨wd, hf, hd, hframe, hscript⟩ :=
    loadRow_find_frame 4 4 getScriptId (pre.foldl (loadRow 4 4 getScriptId) m) row
  have hval : ∀ season < 4, ∀ k < 4, 1 ≤ k →
      (wd.data season).chance k
        = clampedChance (row.getUInt8 (chanceColumn 4 season k)) := by
    intro season hs k hk h1
    rw [hd season hs]
    exact rowChances_chance 4 row season k h1 (by omega)
  refine ⟨wd, hf, ?_, ?_, ?_, hframe, hscript⟩
  · intro season hs k hk h1
    obtain ⟨c1, c2, c3, c4, c5⟩ := hcols season hs k hk h1
    exact ⟨c1, c2, c3, c4, c5, hval season hs k hk h1⟩
  · intro season hs
    rw [hd season hs]
    exact ⟨rfl, rfl, rfl⟩
  · intro column hc h1
    obtain ⟨season, hs, k, hk, hk1, hcol⟩ := hsurj column hc h1
    refine ⟨season, hs, k, hk, hk1, hcol, ?_, ?_⟩
    · rw [← hcol]
      exact (hcols season hs k hk hk1).2.2.2.2
    · rw [← hcol]
      exact hval season hs k hk hk1

/-- Witness of C15: after the one row `sampleRow`, whose column 12 holds 480, read as the
`uint8` 224, the storm chance of winter, season 3, is 25, and column 12 is
`winter_storm_chance`. -/
theorem C15_chance_columns_witness :
    ∃ wd, mapFind (LoadWeatherData 4 4 (fun _ => 0) [sampleRow] []) 7 = some wd ∧
      (wd.data 3).stormChance = 25 ∧
      chanceColumn 4 3 3 = 12 ∧ queryColumns[12]? = some "winter_storm_chance" := by
  obtain ⟨wd, hf, hall, hfields, _⟩ :=
    (C15_chance_columns (fun _ => 0) [] [] sampleRow [] (fun r hr => by cases hr)).2.2.2.2.2
  exact ⟨wd, hf, (hfields 3 (by decide)).2.2.trans (by decide), by decide,
    (hall 3 (by decide) 3 (by decide) (by decide)).2.2.2.2.1⟩

end AzerothCore
